import Mathlib

/-!
Verification of the simulation core of `src/main.cpp` (Network-Visualization).

Modelling conventions:
* `sf::Vector2f` is embedded as `Vec2`, a pair of real numbers; IEEE `float`
  arithmetic is idealized as exact real arithmetic.
* A float operation that produces a non-finite value (±Inf or NaN) — which in
  this program can only arise from dividing by an exactly-zero denominator —
  is modelled as `Option.none`, and propagates through the surrounding
  computation in the `Option` monad.
* A `Node` keeps the physical fields (`position`, `velocity`, `force`) and the
  radius stored in its `CircleShape`; the drawable shape itself and the color
  are presentation-only (the shape's on-screen position is merely mirrored
  from `position` by `setPosition`) and are omitted.
* The C++ code mutates nodes stored in a `std::vector<Node>` through
  references; here a state is a `List Node` and the reference `&node` held by
  a loop is represented by the node's index, updated with `List.set`.
-/

@[ext]
structure Vec2 where
  x : ℝ
  y : ℝ

instance : Add Vec2 := ⟨fun a b => ⟨a.x + b.x, a.y + b.y⟩⟩

instance : Sub Vec2 := ⟨fun a b => ⟨a.x - b.x, a.y - b.y⟩⟩

instance : HMul Vec2 ℝ Vec2 := ⟨fun v c => ⟨v.x * c, v.y * c⟩⟩

instance : HMul ℝ Vec2 Vec2 := ⟨fun c v => ⟨c * v.x, c * v.y⟩⟩

noncomputable instance : HDiv Vec2 ℝ Vec2 := ⟨fun v c => ⟨v.x / c, v.y / c⟩⟩

/-- Euclidean norm of a `Vec2`, the inline `sqrt(pow(·,2) + pow(·,2))`
of the source. -/
noncomputable def Vec2.magnitude (v : Vec2) : ℝ :=
  Real.sqrt (v.x ^ 2 + v.y ^ 2)

/-- The physical state of a `Node` (main.cpp lines 11–17): position, velocity,
accumulated force, and the radius held by its `CircleShape` (mass ≡ radius). -/
structure Node where
  position : Vec2
  velocity : Vec2
  force : Vec2
  radius : ℝ

/-- Gravitational constant (main.cpp line 8). -/
noncomputable def G : ℝ := 0.1

/-- Barnes-Hut opening angle (main.cpp line 9). -/
noncomputable def theta : ℝ := 0.5

/-- Float division: `none` models the non-finite (Inf or NaN) value produced
by dividing by an exactly-zero denominator. -/
noncomputable def fdiv (x y : ℝ) : Option ℝ :=
  if y = 0 then none else some (x / y)

/-- `calculateForce` (main.cpp lines 26–36).  The normalization is guarded by
`distance != 0`, but the magnitude `G * rA * rB / distance²` is not: at zero
distance the division yields Inf and the product `(0,0) * Inf` is NaN, so the
result is `none`. -/
noncomputable def calculateForce (a b : Node) : Option Vec2 :=
  let direction := b.position - a.position
  let distance := Real.sqrt (direction.x ^ 2 + direction.y ^ 2)
  let direction := if distance = 0 then direction else direction / distance
  (fdiv (G * a.radius * b.radius) (distance ^ 2)).map fun forceMagnitude =>
    direction * forceMagnitude

/-- `applyForces` (main.cpp lines 38–47): semi-implicit Euler step followed by
a force reset.  The `shape.setPosition` call only mirrors `position` into the
drawable and is presentation-only. -/
noncomputable def applyForces (node : Node) (timeStep : ℝ) : Node :=
  let velocity := node.velocity + node.force * timeStep
  let position := node.position + velocity * timeStep
  { node with velocity := velocity, position := position, force := Vec2.mk 0 0 }

/-- The nodes other than the one at index `i`: the body of the
`&node != &otherNode` address test of the source iteration. -/
def otherNodes (i : ℕ) (nodes : List Node) : List Node :=
  (nodes.enum.filter fun p => p.1 ≠ i).map Prod.snd

/-- Sum of the pairwise forces exerted on `node` by each element of `others`,
accumulated left to right; a NaN contribution poisons the sum. -/
noncomputable def sumForces (node : Node) (others : List Node) : Option Vec2 :=
  others.foldlM
    (fun acc otherNode => (calculateForce node otherNode).map fun f => acc + f)
    (Vec2.mk 0 0)

/-- `updateForces` (main.cpp lines 49–55) for the node at index `i`.  The
out-of-range case cannot arise at the call sites and is a no-op here. -/
noncomputable def updateForces (i : ℕ) (nodes : List Node) : Option (List Node) :=
  match nodes[i]? with
  | none => some nodes
  | some node =>
    (sumForces node (otherNodes i nodes)).map fun s =>
      nodes.set i { node with force := node.force + s }

/-- `applyBarnesHut` (main.cpp lines 57–74) for the node at index `i`.
The opening test `size / d < theta` is modelled as `d ≠ 0 ∧ size / d < theta`:
when `d = 0` the float quotient is Inf (or NaN for `size = 0`), and both
compare `< theta` as false, so the centroid branch is taken.  The unguarded
`centerOfMass /= totalMass` at zero total mass yields non-finite coordinates
(`none`); `nodes[0]` on an empty set is undefined behaviour (`none`). -/
noncomputable def applyBarnesHut (i : ℕ) (nodes : List Node) (center : Vec2)
    (size : ℝ) : Option (List Node) :=
  match nodes[i]? with
  | none => some nodes
  | some node =>
    let d := Real.sqrt ((center.x - node.position.x) ^ 2 +
      (center.y - node.position.y) ^ 2)
    if d ≠ 0 ∧ size / d < theta then
      match nodes[0]? with
      | none => none
      | some first =>
        (calculateForce node first).map fun f =>
          nodes.set i { node with force := node.force + f }
    else
      let others := otherNodes i nodes
      let centerOfMass := others.foldl
        (fun acc otherNode => acc + otherNode.radius * otherNode.position)
        (Vec2.mk 0 0)
      let totalMass := others.foldl
        (fun acc otherNode => acc + otherNode.radius) (0 : ℝ)
      if totalMass = 0 then none
      else
        (calculateForce node
            { position := centerOfMass / totalMass,
              velocity := Vec2.mk 0 0, force := Vec2.mk 0 0,
              radius := size }).map fun f =>
          nodes.set i { node with force := node.force + f }

/-- `overlap` (main.cpp lines 76–79). -/
noncomputable def overlap (a b : Node) : Prop :=
  Real.sqrt ((a.position.x - b.position.x) ^ 2 +
    (a.position.y - b.position.y) ^ 2) < a.radius + b.radius

/-- `resolveOverlap` (main.cpp lines 81–90).  The division `direction /=
distance` is unguarded: at zero distance both components become NaN and the
positions written back are NaN, modelled as `none`. -/
noncomputable def resolveOverlap (a b : Node) : Option (Node × Node) :=
  let direction := a.position - b.position
  let distance := Real.sqrt (direction.x ^ 2 + direction.y ^ 2)
  let overlapAmount := (a.radius + b.radius - distance) / 2
  if distance = 0 then none
  else
    let direction := direction / distance
    some ({ a with position := a.position + direction * overlapAmount },
          { b with position := b.position - direction * overlapAmount })

open Classical in
/-- One step of the collision loop body (main.cpp lines 142–148) at outer
index `i`, inner index `j`. -/
noncomputable def resolvePair (i j : ℕ) (nodes : List Node) : Option (List Node) :=
  match nodes[i]?, nodes[j]? with
  | some a, some b =>
    if i ≠ j ∧ overlap a b then
      (resolveOverlap a b).map fun p => (nodes.set i p.1).set j p.2
    else some nodes
  | _, _ => some nodes

/-- Phase 1 of a tick (main.cpp lines 130–132): `updateForces` over all nodes. -/
noncomputable def updateForcesPhase (nodes : List Node) : Option (List Node) :=
  (List.range nodes.length).foldlM (fun ns i => updateForces i ns) nodes

/-- Phase 2 of a tick (main.cpp lines 134–136): `applyBarnesHut` over all nodes. -/
noncomputable def barnesHutPhase (nodes : List Node) (center : Vec2) (size : ℝ) :
    Option (List Node) :=
  (List.range nodes.length).foldlM
    (fun ns i => applyBarnesHut i ns center size) nodes

/-- Phase 3 of a tick (main.cpp lines 138–140): integrate every node. -/
noncomputable def applyForcesPhase (nodes : List Node) (timeStep : ℝ) : List Node :=
  nodes.map fun node => applyForces node timeStep

/-- Phase 4 of a tick (main.cpp lines 142–148): the double collision loop. -/
noncomputable def resolvePhase (nodes : List Node) : Option (List Node) :=
  (List.range nodes.length).foldlM
    (fun ns i =>
      (List.range nodes.length).foldlM (fun ms j => resolvePair i j ms) ns)
    nodes

/-- One simulation tick (main.cpp lines 130–148), with the fixed time step
`0.1` of line 139. -/
noncomputable def tick (nodes : List Node) (center : Vec2) (size : ℝ) :
    Option (List Node) :=
  (updateForcesPhase nodes).bind fun ns1 =>
    (barnesHutPhase ns1 center size).bind fun ns2 =>
      resolvePhase (applyForcesPhase ns2 (0.1 : ℝ))

/-- Initialization of one node (main.cpp lines 103–111): randomized position,
zero velocity and force, radius 10. -/
noncomputable def initNode (p : Vec2) : Node :=
  { position := p, velocity := Vec2.mk 0 0, force := Vec2.mk 0 0, radius := 10 }

/-- The node states reachable at a tick boundary: an initial state (any
randomized positions) or the completed-tick successor of a reachable state. -/
inductive Reachable : List Node → Prop where
  | init (ps : List Vec2) : Reachable (ps.map initNode)
  | step (ns out : List Node) (center : Vec2) (size : ℝ) :
      Reachable ns → tick ns center size = some out → Reachable out

/-- `n` consecutive `applyForces` calls with a fixed time step. -/
noncomputable def iterateApply (node : Node) (timeStep : ℝ) : ℕ → Node
  | 0 => node
  | n + 1 => applyForces (iterateApply node timeStep n) timeStep

/-- The first body of the spec's end-to-end force example (§8): radius 10 at
the origin. -/
noncomputable def specA : Node :=
  { position := Vec2.mk 0 0, velocity := Vec2.mk 0 0,
    force := Vec2.mk 0 0, radius := 10 }

/-- The second body of the spec's end-to-end force example (§8): radius 10 at
`(100, 0)`. -/
noncomputable def specB : Node :=
  { position := Vec2.mk 100 0, velocity := Vec2.mk 0 0,
    force := Vec2.mk 0 0, radius := 10 }

/-- An overlapping-pair example: radius 10 at the origin. -/
noncomputable def ovA : Node :=
  { position := Vec2.mk 0 0, velocity := Vec2.mk 0 0,
    force := Vec2.mk 0 0, radius := 10 }

/-- An overlapping-pair example: radius 10 at `(1, 0)`, separation 1 < 20. -/
noncomputable def ovB : Node :=
  { position := Vec2.mk 1 0, velocity := Vec2.mk 0 0,
    force := Vec2.mk 0 0, radius := 10 }

/-- `ovA` after `resolveOverlap ovA ovB`: pushed to `(-19/2, 0)`. -/
noncomputable def ovA2 : Node :=
  { position := Vec2.mk (-(19 / 2)) 0, velocity := Vec2.mk 0 0,
    force := Vec2.mk 0 0, radius := 10 }

/-- `ovB` after `resolveOverlap ovA ovB`: pushed to `(21/2, 0)`. -/
noncomputable def ovB2 : Node :=
  { position := Vec2.mk (21 / 2) 0, velocity := Vec2.mk 0 0,
    force := Vec2.mk 0 0, radius := 10 }

/-- `ovA` after `updateForces 0 [ovA, ovB]`: force `(10, 0)` accumulated. -/
noncomputable def uA : Node :=
  { position := Vec2.mk 0 0, velocity := Vec2.mk 0 0,
    force := Vec2.mk 10 0, radius := 10 }

/-- A coincident-pair example: radius 10 at `(5, 5)`. -/
noncomputable def cnA : Node :=
  { position := Vec2.mk 5 5, velocity := Vec2.mk 0 0,
    force := Vec2.mk 0 0, radius := 10 }

/-- A coincident-pair example: radius 7, same position `(5, 5)` as `cnA`. -/
noncomputable def cnB : Node :=
  { position := Vec2.mk 5 5, velocity := Vec2.mk 0 0,
    force := Vec2.mk 0 0, radius := 7 }

/-- A lone body for the singleton Barnes-Hut example. -/
noncomputable def bhNode : Node :=
  { position := Vec2.mk 0 0, velocity := Vec2.mk 0 0,
    force := Vec2.mk 0 0, radius := 10 }

/-- Reference center for the singleton Barnes-Hut example: distance 1 from
`bhNode`, so with size 10 the ratio 10 ≥ theta selects the centroid branch. -/
noncomputable def bhCenter : Vec2 := Vec2.mk 1 0

@[simp] theorem Vec2.add_x (a b : Vec2) : (a + b).x = a.x + b.x := rfl

@[simp] theorem Vec2.add_y (a b : Vec2) : (a + b).y = a.y + b.y := rfl

@[simp] theorem Vec2.sub_x (a b : Vec2) : (a - b).x = a.x - b.x := rfl

@[simp] theorem Vec2.sub_y (a b : Vec2) : (a - b).y = a.y - b.y := rfl

@[simp] theorem Vec2.mulR_x (v : Vec2) (c : ℝ) : (v * c).x = v.x * c := rfl

@[simp] theorem Vec2.mulR_y (v : Vec2) (c : ℝ) : (v * c).y = v.y * c := rfl

@[simp] theorem Vec2.mulL_x (c : ℝ) (v : Vec2) : (c * v).x = c * v.x := rfl

@[simp] theorem Vec2.mulL_y (c : ℝ) (v : Vec2) : (c * v).y = c * v.y := rfl

@[simp] theorem Vec2.divR_x (v : Vec2) (c : ℝ) : (v / c).x = v.x / c := rfl

@[simp] theorem Vec2.divR_y (v : Vec2) (c : ℝ) : (v / c).y = v.y / c := rfl

theorem Vec2.sub_eq_zero_iff (a b : Vec2) : a - b = Vec2.mk 0 0 ↔ a = b := by
  constructor
  · intro h
    have hx := congrArg Vec2.x h
    have hy := congrArg Vec2.y h
    simp at hx hy
    ext
    · linarith
    · linarith
  · rintro rfl
    ext <;> simp

theorem magnitude_nonneg (v : Vec2) : 0 ≤ v.magnitude :=
  Real.sqrt_nonneg _

theorem magnitude_sq (v : Vec2) : v.magnitude ^ 2 = v.x ^ 2 + v.y ^ 2 :=
  Real.sq_sqrt (by positivity)

theorem magnitude_eq_zero_iff (v : Vec2) : v.magnitude = 0 ↔ v = Vec2.mk 0 0 := by
  unfold Vec2.magnitude
  rw [Real.sqrt_eq_zero (by positivity)]
  constructor
  · intro h
    have hx : v.x = 0 := by nlinarith [sq_nonneg v.x, sq_nonneg v.y]
    have hy : v.y = 0 := by nlinarith [sq_nonneg v.x, sq_nonneg v.y]
    ext <;> simp [hx, hy]
  · rintro rfl
    norm_num

theorem magnitude_pos (v : Vec2) (h : v ≠ Vec2.mk 0 0) : 0 < v.magnitude :=
  lt_of_le_of_ne (magnitude_nonneg v) fun h0 =>
    h ((magnitude_eq_zero_iff v).mp h0.symm)

theorem magnitude_mul (v : Vec2) (c : ℝ) :
    (v * c).magnitude = v.magnitude * |c| := by
  unfold Vec2.magnitude
  have h : (v * c).x ^ 2 + (v * c).y ^ 2 = (v.x ^ 2 + v.y ^ 2) * c ^ 2 := by
    simp
    ring
  rw [h, Real.sqrt_mul (by positivity), Real.sqrt_sq_eq_abs]

theorem sqrt_eval {a b : ℝ} (hb : 0 ≤ b) (h : b ^ 2 = a) : Real.sqrt a = b := by
  rw [← h]
  exact Real.sqrt_sq hb

theorem calculateForce_eval (a b : Node) (d : ℝ) (hd : 0 < d)
    (h : (b.position - a.position).x ^ 2 + (b.position - a.position).y ^ 2 = d ^ 2) :
    calculateForce a b =
      some ((b.position - a.position) / d *
        (G * a.radius * b.radius / d ^ 2)) := by
  have hs : Real.sqrt ((b.position - a.position).x ^ 2 +
      (b.position - a.position).y ^ 2) = d := sqrt_eval hd.le h.symm
  simp only [calculateForce, fdiv, hs]
  rw [if_neg hd.ne', if_neg (by positivity : ¬ d ^ 2 = 0)]
  rfl

theorem resolveOverlap_eval (a b : Node) (d : ℝ) (hd : 0 < d)
    (h : (a.position - b.position).x ^ 2 + (a.position - b.position).y ^ 2 = d ^ 2) :
    resolveOverlap a b =
      some ({ a with position := a.position +
                (a.position - b.position) / d * ((a.radius + b.radius - d) / 2) },
            { b with position := b.position -
                (a.position - b.position) / d * ((a.radius + b.radius - d) / 2) }) := by
  have hs : Real.sqrt ((a.position - b.position).x ^ 2 +
      (a.position - b.position).y ^ 2) = d := sqrt_eval hd.le h.symm
  simp only [resolveOverlap, hs]
  rw [if_neg hd.ne']

theorem overlap_iff (a b : Node) (d : ℝ) (hd : 0 ≤ d)
    (h : (a.position - b.position).x ^ 2 + (a.position - b.position).y ^ 2 = d ^ 2) :
    overlap a b ↔ d < a.radius + b.radius := by
  unfold overlap
  have h2 : (a.position.x - b.position.x) ^ 2 +
      (a.position.y - b.position.y) ^ 2 = d ^ 2 := by
    simpa using h
  rw [h2, sqrt_eval hd rfl]

theorem foldlM_option_preserves {α β : Type} (P : α → Prop) (f : α → β → Option α)
    (hf : ∀ a x a', P a → f a x = some a' → P a') :
    ∀ (l : List β) (a a' : α), P a → List.foldlM f a l = some a' → P a' := by
  intro l
  induction l with
  | nil =>
    intro a a' hP h
    simp only [List.foldlM_nil] at h
    cases h
    exact hP
  | cons x l ih =>
    intro a a' hP h
    rw [List.foldlM_cons] at h
    obtain ⟨mid, hmid, hrest⟩ := Option.bind_eq_some.mp h
    exact ih mid a' (hf a x mid hP hmid) hrest

theorem calculateForce_specAB :
    calculateForce specA specB = some (Vec2.mk (1 / 1000) 0) := by
  rw [calculateForce_eval specA specB 100 (by norm_num)
    (by simp [specA, specB])]
  congr 1
  ext <;> simp [specA, specB, G] <;> norm_num

theorem magnitude_spec_force :
    Vec2.magnitude (Vec2.mk (1 / 1000) 0) = 1 / 1000 := by
  unfold Vec2.magnitude
  exact sqrt_eval (by norm_num) (by norm_num)

/-- Claim C1 (failing-input evaluation): for two coincident bodies the code
does not return the zero vector — `calculateForce` divides `G * rA * rB` by
the zero squared distance, producing an infinite magnitude whose product with
the zero direction is NaN (modelled as `none`). -/
theorem calculateForce_coincident_nan : calculateForce cnA cnB = none := by
  simp [calculateForce, fdiv, cnA, cnB]

/-- Claim C3: `applyForces` updates velocity from the accumulated force, then
position from the already-updated velocity (semi-implicit Euler), then clears
the force to zero; the radius is untouched and no other field enters. -/
theorem applyForces_spec (node : Node) (timeStep : ℝ) :
    applyForces node timeStep =
      { position := node.position + (node.velocity + node.force * timeStep) * timeStep,
        velocity := node.velocity + node.force * timeStep,
        force := Vec2.mk 0 0,
        radius := node.radius } := rfl

/-- Claim C2 counterexample: for radii 10 and 10 at distance 100 the force
magnitude the code computes is `1/1000 = 0.001`, not the claimed
`0.01`. -/
theorem calculateForce_example_magnitude_ne :
    calculateForce specA specB = some (Vec2.mk (1 / 1000) 0) ∧
    Vec2.magnitude (Vec2.mk (1 / 1000) 0) ≠ 1 / 100 := by
  refine ⟨calculateForce_specAB, ?_⟩
  rw [magnitude_spec_force]
  norm_num

/-- Claim C2 (amended): for non-coincident bodies, `calculateForce a b` is
`normalize(b.position - a.position)` scaled by `G * a.radius * b.radius / d²`;
whenever the radii are positive that vector is a positive multiple of
`b.position - a.position`, so it points from `a` toward `b`; and for radii 10
and 10 at distance 100 the force magnitude is exactly
`0.1 * 10 * 10 / 100² = 0.001` (not the `0.01` the claim states). -/
theorem calculateForce_formula (a b : Node)
    (hpos : a.position ≠ b.position) :
    calculateForce a b =
      some ((b.position - a.position) / Vec2.magnitude (b.position - a.position) *
        (G * a.radius * b.radius / Vec2.magnitude (b.position - a.position) ^ 2)) ∧
    (b.position - a.position) / Vec2.magnitude (b.position - a.position) *
        (G * a.radius * b.radius / Vec2.magnitude (b.position - a.position) ^ 2) =
      (G * a.radius * b.radius / Vec2.magnitude (b.position - a.position) ^ 3) *
        (b.position - a.position) ∧
    (0 < a.radius → 0 < b.radius →
      0 < G * a.radius * b.radius / Vec2.magnitude (b.position - a.position) ^ 3) ∧
    calculateForce specA specB = some (Vec2.mk (1 / 1000) 0) ∧
    Vec2.magnitude (Vec2.mk (1 / 1000) 0) = 1 / 1000 := by
  have hne : b.position - a.position ≠ Vec2.mk 0 0 := fun h =>
    hpos ((Vec2.sub_eq_zero_iff _ _).mp h).symm
  have hd : 0 < Vec2.magnitude (b.position - a.position) :=
    magnitude_pos _ hne
  have hG : (0 : ℝ) < G := by norm_num [G]
  refine ⟨calculateForce_eval a b _ hd (magnitude_sq _).symm, ?_, ?_,
    calculateForce_specAB, magnitude_spec_force⟩
  · ext <;> (simp; field_simp; ring)
  · intro ha hb
    positivity

/-- Witness for C2's theorem at the spec's end-to-end example. -/
theorem calculateForce_formula_witness :
    specA.position ≠ specB.position ∧
    (calculateForce specA specB =
      some ((specB.position - specA.position) /
          Vec2.magnitude (specB.position - specA.position) *
        (G * specA.radius * specB.radius /
          Vec2.magnitude (specB.position - specA.position) ^ 2)) ∧
    (specB.position - specA.position) /
        Vec2.magnitude (specB.position - specA.position) *
        (G * specA.radius * specB.radius /
          Vec2.magnitude (specB.position - specA.position) ^ 2) =
      (G * specA.radius * specB.radius /
          Vec2.magnitude (specB.position - specA.position) ^ 3) *
        (specB.position - specA.position) ∧
    (0 < specA.radius → 0 < specB.radius →
      0 < G * specA.radius * specB.radius /
        Vec2.magnitude (specB.position - specA.position) ^ 3) ∧
    calculateForce specA specB = some (Vec2.mk (1 / 1000) 0) ∧
    Vec2.magnitude (Vec2.mk (1 / 1000) 0) = 1 / 1000) := by
  have h1 : specA.position ≠ specB.position := by
    simp only [specA, specB]
    intro h
    have := congrArg Vec2.x h
    norm_num at this
  exact ⟨h1, calculateForce_formula specA specB h1⟩

/-- Claim C4: on an overlapping pair with non-zero separation,
`resolveOverlap` leaves the two centers exactly `a.radius + b.radius` apart,
and the two displacement magnitudes are equal. -/
theorem resolveOverlap_separation (a b a' b' : Node)
    (hpos : a.position ≠ b.position) (hov : overlap a b)
    (heq : resolveOverlap a b = some (a', b')) :
    Vec2.magnitude (a'.position - b'.position) = a.radius + b.radius ∧
    Vec2.magnitude (a'.position - a.position) =
      Vec2.magnitude (b'.position - b.position) := by
  have hne : a.position - b.position ≠ Vec2.mk 0 0 := fun h =>
    hpos ((Vec2.sub_eq_zero_iff _ _).mp h)
  have hd : 0 < Vec2.magnitude (a.position - b.position) := magnitude_pos _ hne
  have heval := resolveOverlap_eval a b (Vec2.magnitude (a.position - b.position))
    hd (magnitude_sq _).symm
  obtain ⟨h1, h2⟩ := Prod.ext_iff.mp (Option.some.inj (heq.symm.trans heval))
  subst h1
  subst h2
  set d := Vec2.magnitude (a.position - b.position) with hdDef
  have hd0 : d ≠ 0 := hd.ne'
  have hsum : d < a.radius + b.radius := by
    unfold overlap at hov
    simpa [Vec2.magnitude, hdDef] using hov
  have hsumpos : 0 < a.radius + b.radius := hd.trans hsum
  constructor
  · have hvec : ((a.position +
        (a.position - b.position) / d * ((a.radius + b.radius - d) / 2)) -
        (b.position -
        (a.position - b.position) / d * ((a.radius + b.radius - d) / 2))) =
        (a.position - b.position) * ((a.radius + b.radius) / d) := by
      ext
      · simp
        field_simp
        ring
      · simp
        field_simp
        ring
    show Vec2.magnitude ((a.position + _) - (b.position - _)) = _
    rw [hvec, magnitude_mul, ← hdDef, abs_of_pos (div_pos hsumpos hd)]
    field_simp
  · have hva : ((a.position +
        (a.position - b.position) / d * ((a.radius + b.radius - d) / 2)) -
        a.position) =
        (a.position - b.position) * ((a.radius + b.radius - d) / 2 / d) := by
      ext <;> simp <;> ring
    have hvb : ((b.position -
        (a.position - b.position) / d * ((a.radius + b.radius - d) / 2)) -
        b.position) =
        (a.position - b.position) * (-((a.radius + b.radius - d) / 2 / d)) := by
      ext <;> simp <;> ring
    show Vec2.magnitude ((a.position + _) - a.position) =
      Vec2.magnitude ((b.position - _) - b.position)
    rw [hva, hvb, magnitude_mul, magnitude_mul, abs_neg]

/-- Witness for C4's theorem: radii 10 at `(0,0)` and `(1,0)` separate to
distance 20 with equal pushes of 19/2. -/
theorem resolveOverlap_separation_witness :
    ovA.position ≠ ovB.position ∧ overlap ovA ovB ∧
    resolveOverlap ovA ovB = some (ovA2, ovB2) ∧
    (Vec2.magnitude (ovA2.position - ovB2.position) = ovA.radius + ovB.radius ∧
     Vec2.magnitude (ovA2.position - ovA.position) =
       Vec2.magnitude (ovB2.position - ovB.position)) := by
  have h1 : ovA.position ≠ ovB.position := by
    simp only [ovA, ovB]
    intro h
    have := congrArg Vec2.x h
    norm_num at this
  have h2 : overlap ovA ovB := by
    rw [overlap_iff ovA ovB 1 (by norm_num) (by simp [ovA, ovB])]
    norm_num [ovA, ovB]
  have h3 : resolveOverlap ovA ovB = some (ovA2, ovB2) := by
    rw [resolveOverlap_eval ovA ovB 1 (by norm_num) (by simp [ovA, ovB])]
    simp only [ovA, ovB, ovA2, ovB2, Option.some.injEq, Prod.mk.injEq]
    constructor
    · congr 1
      ext <;> simp <;> norm_num
    · congr 1
      ext <;> simp <;> norm_num
  exact ⟨h1, h2, h3, resolveOverlap_separation ovA ovB ovA2 ovB2 h1 h2 h3⟩

/-- Claim C9: for a pair with non-zero separation, `resolveOverlap` moves the
two bodies by exactly opposite vectors, so the sum of their positions (hence
their midpoint) is unchanged. -/
theorem resolveOverlap_midpoint (a b a' b' : Node)
    (hpos : a.position ≠ b.position)
    (heq : resolveOverlap a b = some (a', b')) :
    a'.position + b'.position = a.position + b.position := by
  have hne : a.position - b.position ≠ Vec2.mk 0 0 := fun h =>
    hpos ((Vec2.sub_eq_zero_iff _ _).mp h)
  have hd : 0 < Vec2.magnitude (a.position - b.position) := magnitude_pos _ hne
  have heval := resolveOverlap_eval a b (Vec2.magnitude (a.position - b.position))
    hd (magnitude_sq _).symm
  obtain ⟨h1, h2⟩ := Prod.ext_iff.mp (Option.some.inj (heq.symm.trans heval))
  subst h1
  subst h2
  ext <;> simp

/-- Witness for C9's theorem at the same concrete overlapping pair. -/
theorem resolveOverlap_midpoint_witness :
    ovA.position ≠ ovB.position ∧
    resolveOverlap ovA ovB = some (ovA2, ovB2) ∧
    ovA2.position + ovB2.position = ovA.position + ovB.position := by
  have h1 : ovA.position ≠ ovB.position := by
    simp only [ovA, ovB]
    intro h
    have := congrArg Vec2.x h
    norm_num at this
  have h3 : resolveOverlap ovA ovB = some (ovA2, ovB2) := by
    rw [resolveOverlap_eval ovA ovB 1 (by norm_num) (by simp [ovA, ovB])]
    simp only [ovA, ovB, ovA2, ovB2, Option.some.injEq, Prod.mk.injEq]
    constructor
    · congr 1
      ext <;> simp <;> norm_num
    · congr 1
      ext <;> simp <;> norm_num
  exact ⟨h1, h3, resolveOverlap_midpoint ovA ovB ovA2 ovB2 h1 h3⟩

/-- Claim C5 (failing-input evaluation): two exactly coincident bodies pass
the `overlap` test, and `resolveOverlap` then divides the zero direction by
the zero distance — the written-back positions are NaN (`none`), not a
deterministic separation. -/
theorem resolveOverlap_coincident_nan :
    overlap cnA cnB ∧ resolveOverlap cnA cnB = none := by
  constructor
  · rw [overlap_iff cnA cnB 0 le_rfl (by simp [cnA, cnB])]
    norm_num [cnA, cnB]
  · simp [resolveOverlap, cnA, cnB]

/-- Claim C6 (failing-input evaluation): for a singleton body set the centroid
branch of `applyBarnesHut` divides the centroid by the zero total mass of the
empty "other bodies" set, producing a NaN force contribution (`none`) instead
of a guarded zero contribution. -/
theorem applyBarnesHut_singleton_nan :
    applyBarnesHut 0 [bhNode] bhCenter 10 = none := by
  have hd : Real.sqrt ((bhCenter.x - bhNode.position.x) ^ 2 +
      (bhCenter.y - bhNode.position.y) ^ 2) = 1 := by
    apply sqrt_eval (by norm_num)
    simp [bhCenter, bhNode]
  simp only [applyBarnesHut, List.getElem?_cons_zero, hd]
  rw [if_neg]
  · simp [otherNodes]
  · rw [not_and_or]
    right
    norm_num [theta]

theorem resolveOverlap_force (a b a' b' : Node)
    (h : resolveOverlap a b = some (a', b')) :
    a'.force = a.force ∧ b'.force = b.force := by
  unfold resolveOverlap at h
  dsimp only at h
  split at h
  · cases h
  · injection Option.some.inj h with h1 h2
    rw [← h1, ← h2]
    exact ⟨rfl, rfl⟩

theorem resolvePair_forces (i j : ℕ) (ns out : List Node)
    (h : resolvePair i j ns = some out)
    (hP : ∀ x ∈ ns, x.force = Vec2.mk 0 0) :
    ∀ x ∈ out, x.force = Vec2.mk 0 0 := by
  unfold resolvePair at h
  rcases hi : ns[i]? with _ | a
  · rw [hi] at h
    rcases hj : ns[j]? with _ | b
    · rw [hj] at h
      cases h
      exact hP
    · rw [hj] at h
      cases h
      exact hP
  · rw [hi] at h
    rcases hj : ns[j]? with _ | b
    · rw [hj] at h
      cases h
      exact hP
    · rw [hj] at h
      dsimp only at h
      by_cases hc : i ≠ j ∧ overlap a b
      · rw [if_pos hc] at h
        obtain ⟨⟨a', b'⟩, hro, hout⟩ := Option.map_eq_some'.mp h
        obtain ⟨hfa, hfb⟩ := resolveOverlap_force a b a' b' hro
        subst hout
        intro x hx
        rcases List.mem_or_eq_of_mem_set hx with hx2 | rfl
        · rcases List.mem_or_eq_of_mem_set hx2 with hx3 | rfl
          · exact hP x hx3
          · rw [hfa]
            exact hP a (List.getElem?_mem hi)
        · rw [hfb]
          exact hP b (List.getElem?_mem hj)
      · rw [if_neg hc] at h
        cases h
        exact hP

theorem resolvePhase_forces (ns out : List Node)
    (h : resolvePhase ns = some out)
    (hP : ∀ x ∈ ns, x.force = Vec2.mk 0 0) :
    ∀ x ∈ out, x.force = Vec2.mk 0 0 := by
  unfold resolvePhase at h
  refine foldlM_option_preserves (fun l => ∀ x ∈ l, x.force = Vec2.mk 0 0)
    _ ?_ _ ns out hP h
  intro a i a' ha hstep
  refine foldlM_option_preserves (fun l => ∀ x ∈ l, x.force = Vec2.mk 0 0)
    _ ?_ _ a a' ha hstep
  intro c j c' hc hstep2
  exact resolvePair_forces i j c c' hstep2 hc

theorem applyForcesPhase_forces (ns : List Node) (dt : ℝ) :
    ∀ x ∈ applyForcesPhase ns dt, x.force = Vec2.mk 0 0 := by
  intro x hx
  unfold applyForcesPhase at hx
  obtain ⟨n, _, rfl⟩ := List.mem_map.mp hx
  rfl

theorem tick_forces (ns out : List Node) (center : Vec2) (size : ℝ)
    (h : tick ns center size = some out) :
    ∀ x ∈ out, x.force = Vec2.mk 0 0 := by
  unfold tick at h
  obtain ⟨ns1, h1, h2⟩ := Option.bind_eq_some.mp h
  obtain ⟨ns2, h3, h4⟩ := Option.bind_eq_some.mp h2
  exact resolvePhase_forces _ _ h4 (applyForcesPhase_forces ns2 0.1)

/-- Claim C7: every state reachable at a tick boundary — the initialized
state, or the output of any completed tick — has zero accumulated force on
every body: initialization zeroes it, and the integrate phase clears what the
accumulation phase wrote before the collision phase (which never touches
forces) runs. -/
theorem reachable_forces_zero (ns : List Node) (x : Node)
    (h : Reachable ns) (hx : x ∈ ns) : x.force = Vec2.mk 0 0 := by
  induction h with
  | init ps =>
    obtain ⟨p, _, rfl⟩ := List.mem_map.mp hx
    rfl
  | step ms out center size hr htick ih =>
    exact tick_forces ms out center size htick x hx

/-- Witness for C7's theorem at a concrete initial state. -/
theorem reachable_forces_zero_witness :
    Reachable [initNode (Vec2.mk 3 4)] ∧
    initNode (Vec2.mk 3 4) ∈ [initNode (Vec2.mk 3 4)] ∧
    (initNode (Vec2.mk 3 4)).force = Vec2.mk 0 0 := by
  have h : Reachable [initNode (Vec2.mk 3 4)] := Reachable.init [Vec2.mk 3 4]
  have hx : initNode (Vec2.mk 3 4) ∈ [initNode (Vec2.mk 3 4)] :=
    List.mem_singleton.mpr rfl
  exact ⟨h, hx, reachable_forces_zero _ _ h hx⟩

theorem iterateApply_invariant (node : Node) (timeStep : ℝ)
    (h : node.force = Vec2.mk 0 0) (n : ℕ) :
    (iterateApply node timeStep n).force = Vec2.mk 0 0 ∧
    (iterateApply node timeStep n).velocity = node.velocity ∧
    (iterateApply node timeStep n).position =
      node.position + node.velocity * timeStep * (n : ℝ) := by
  induction n with
  | zero =>
    refine ⟨h, rfl, ?_⟩
    ext <;> simp [iterateApply]
  | succ n ih =>
    obtain ⟨hf, hv, hp⟩ := ih
    unfold iterateApply applyForces
    rw [hf, hv, hp]
    refine ⟨rfl, ?_, ?_⟩
    · ext <;> simp
    · ext <;> (simp; ring)

/-- Claim C8: starting from zero accumulated force, `n` consecutive
`applyForces` calls with a fixed time step leave the velocity unchanged and
advance the position by `velocity * timeStep` per call. -/
theorem iterateApply_linear (node : Node) (timeStep : ℝ) (n : ℕ)
    (h : node.force = Vec2.mk 0 0) :
    (iterateApply node timeStep n).velocity = node.velocity ∧
    (iterateApply node timeStep n).position =
      node.position + node.velocity * timeStep * (n : ℝ) :=
  ⟨(iterateApply_invariant node timeStep h n).2.1,
   (iterateApply_invariant node timeStep h n).2.2⟩

/-- Witness for C8's theorem: three unit steps from a freshly initialized
node. -/
theorem iterateApply_linear_witness :
    (initNode (Vec2.mk 2 3)).force = Vec2.mk 0 0 ∧
    ((iterateApply (initNode (Vec2.mk 2 3)) 1 3).velocity =
        (initNode (Vec2.mk 2 3)).velocity ∧
     (iterateApply (initNode (Vec2.mk 2 3)) 1 3).position =
        (initNode (Vec2.mk 2 3)).position +
          (initNode (Vec2.mk 2 3)).velocity * (1 : ℝ) * ((3 : ℕ) : ℝ)) :=
  ⟨rfl, iterateApply_linear (initNode (Vec2.mk 2 3)) 1 3 rfl⟩

/-- Claim C10: `updateForces i` only writes the accumulated force of the node
at index `i`: the length is unchanged, every node's position, velocity and
radius are unchanged, and every other node's force is unchanged. -/
theorem updateForces_frame (i j : ℕ) (nodes out : List Node)
    (heq : updateForces i nodes = some out) :
    out.length = nodes.length ∧
    (out[j]?).map Node.position = (nodes[j]?).map Node.position ∧
    (out[j]?).map Node.velocity = (nodes[j]?).map Node.velocity ∧
    (out[j]?).map Node.radius = (nodes[j]?).map Node.radius ∧
    (j ≠ i → (out[j]?).map Node.force = (nodes[j]?).map Node.force) := by
  unfold updateForces at heq
  rcases hi : nodes[i]? with _ | node <;> rw [hi] at heq
  · cases heq
    exact ⟨rfl, rfl, rfl, rfl, fun _ => rfl⟩
  · obtain ⟨s, hs, hout⟩ := Option.map_eq_some'.mp heq
    subst hout
    have hlt : i < nodes.length := by
      rcases List.getElem?_eq_some.mp hi with ⟨hl, _⟩
      exact hl
    refine ⟨List.length_set .., ?_⟩
    by_cases hij : j = i
    · subst hij
      have hset : (nodes.set j { node with force := node.force + s })[j]? =
          some { node with force := node.force + s } := by
        rw [List.getElem?_set_self]
        exact hlt
      rw [hset, hi]
      exact ⟨rfl, rfl, rfl, fun hne => absurd rfl hne⟩
    · have hset : (nodes.set i { node with force := node.force + s })[j]? =
          nodes[j]? := List.getElem?_set_ne fun h2 => hij h2.symm
      rw [hset]
      exact ⟨rfl, rfl, rfl, fun _ => rfl⟩

theorem updateForces_eval_ovAB : updateForces 0 [ovA, ovB] = some [uA, ovB] := by
  have hcalc : calculateForce ovA ovB = some (Vec2.mk 10 0) := by
    rw [calculateForce_eval ovA ovB 1 (by norm_num) (by simp [ovA, ovB])]
    congr 1
    ext <;> simp [ovA, ovB, G] <;> norm_num
  have hsum : sumForces ovA [ovB] = some (Vec2.mk 0 0 + Vec2.mk 10 0) := by
    unfold sumForces
    rw [List.foldlM_cons, hcalc]
    rfl
  have hstep : updateForces 0 [ovA, ovB] =
      (sumForces ovA [ovB]).map fun s =>
        [ovA, ovB].set 0 { ovA with force := ovA.force + s } := rfl
  rw [hstep, hsum]
  simp only [Option.map_some', Option.some.injEq, List.set_cons_zero,
    List.cons.injEq, and_true]
  simp only [ovA, uA]
  congr 1
  ext <;> simp

/-- Witness for C10's theorem: index 0 of a two-node set; index 1 is fully
unchanged. -/
theorem updateForces_frame_witness :
    updateForces 0 [ovA, ovB] = some [uA, ovB] ∧
    ([uA, ovB].length = [ovA, ovB].length ∧
     ([uA, ovB][1]?).map Node.position = ([ovA, ovB][1]?).map Node.position ∧
     ([uA, ovB][1]?).map Node.velocity = ([ovA, ovB][1]?).map Node.velocity ∧
     ([uA, ovB][1]?).map Node.radius = ([ovA, ovB][1]?).map Node.radius ∧
     (1 ≠ 0 → ([uA, ovB][1]?).map Node.force = ([ovA, ovB][1]?).map Node.force)) :=
  ⟨updateForces_eval_ovAB,
   updateForces_frame 0 1 [ovA, ovB] [uA, ovB] updateForces_eval_ovAB⟩
